import Mathlib

/-!
Verification of the dependency-tracking subscription engine of
`valtio-select` (src/subscribeTracked.ts together with
src/useTrackedSnapshot.ts and src/utils.ts).

The embedding is shallow: the mutable object graph is a heap mapping
object identities to key/value tables; the `createTracker` Proxy `get`
handler becomes `trackerGet`; a selector ("getter") is modelled as the
finite sequence of chained property reads it performs in one synchronous
pass, optionally throwing; the engine closure state (the `unsubs` array,
the callback, the event order) becomes an explicit `EngineState`
threaded through `cleanup`, `setupSubscriptions`, the key-listener body
and `subscribeTracked`.
-/

namespace ValtioSelect

/-! ### Object graph -/

/-- Identity of a JavaScript object in the observed graph. -/
abbrev ObjId := Nat

/-- A property key (string or symbol; both are recorded alike). -/
abbrev Key := String

/-- A JavaScript value as far as the tracker can distinguish it:
`null`, `undefined`, numeric and string primitives, or a reference to
an object of the graph.  Only a non-null object reference satisfies the
`value && typeof value === "object"` test of the source. -/
inductive Value where
  | vnull
  | vundef
  | vnum (n : Nat)
  | vstr (s : String)
  | vref (o : ObjId)
deriving DecidableEq

/-- Whether a value is a non-null object reference, i.e. passes the
`value && typeof value === "object"` test in `createTracker`. -/
def Value.isRef : Value → Bool
  | Value.vref _ => true
  | _ => false

/-- The object graph: every object id maps each key to a value
(absent keys read as `undefined`). -/
abbrev Heap := ObjId → Key → Value

/-! ### Tracking wrapper (`createTracker`) -/

/-- A value as seen by the running selector: either a plain, unwrapped
JavaScript value, or a tracking proxy produced by `createTracker`
wrapping object `o`. -/
inductive TVal where
  | plain (v : Value)
  | tracked (o : ObjId)
deriving DecidableEq

/-- The access set built by `trackAccesses`: the (object, key) pairs
recorded during one evaluation pass, in first-access order.  The source
keeps a `Map<object, Set<key>>`, so a pair is never recorded twice;
`recordAccess` mirrors that by inserting only when absent. -/
abbrev AccessSet := List (ObjId × Key)

/-- Insert an access into the set, mirroring the `Map`/`Set` insertion
performed by the `onAccess` closure in `trackAccesses`. -/
def recordAccess (acc : AccessSet) (o : ObjId) (k : Key) : AccessSet :=
  if (o, k) ∈ acc then acc else acc ++ [(o, k)]

/-- The `get` handler of the Proxy returned by `createTracker`, reading
key `k` on wrapped object `o`: record the access when tracking is
enabled, fetch the underlying value, and when tracking is enabled and
the value is a non-null object return it recursively wrapped, otherwise
return it unwrapped. -/
def trackerGet (h : Heap) (tracking : Bool) (o : ObjId) (k : Key)
    (acc : AccessSet) : TVal × AccessSet :=
  let acc2 := if tracking then recordAccess acc o k else acc
  match h o k with
  | Value.vref o2 =>
      if tracking then (TVal.tracked o2, acc2) else (TVal.plain (Value.vref o2), acc2)
  | v => (TVal.plain v, acc2)

/-- One property read performed by the selector on a value it holds.
A read on a tracked proxy goes through `trackerGet`; a read on a plain
object reference is an ordinary uninstrumented property access; a read
on a primitive base is modelled as yielding `undefined`. -/
def readStep (h : Heap) (tracking : Bool) (v : TVal) (k : Key)
    (acc : AccessSet) : TVal × AccessSet :=
  match v with
  | TVal.tracked o => trackerGet h tracking o k acc
  | TVal.plain (Value.vref o) => (TVal.plain (h o k), acc)
  | TVal.plain _ => (TVal.plain Value.vundef, acc)

/-- A chained property read `base.k1.k2...`, threading the access set. -/
def readChain (h : Heap) (tracking : Bool) : TVal → List Key → AccessSet → TVal × AccessSet
  | v, [], acc => (v, acc)
  | v, k :: ks, acc =>
      readChain h tracking (readStep h tracking v k acc).1 ks (readStep h tracking v k acc).2

/-! ### The getter and `trackAccesses` -/

/-- One step of a selector body: a chained read starting from the
tracked root proxy, or a point where the selector throws. -/
inductive GStep where
  | read (path : List Key)
  | fail
deriving DecidableEq

/-- A selector modelled by the bounded sequence of chained property
reads it performs in one synchronous pass. -/
abbrev Getter := List GStep

/-- Run the getter against the tracked root with tracking enabled,
accumulating accesses; `Except.error` models the selector throwing
(the accesses gathered so far are discarded with the exception). -/
def runGetter (h : Heap) (root : ObjId) : Getter → AccessSet → Except Unit AccessSet
  | [], acc => Except.ok acc
  | GStep.fail :: _, _ => Except.error ()
  | GStep.read p :: rest, acc =>
      runGetter h root rest (readChain h true (TVal.tracked root) p acc).2

/-- `trackAccesses`: allocate a fresh empty access set, run the getter
over `createTracker(proxy)` with `isTracking.current = true` (reset to
false in the `finally` block), and return the accesses. -/
def trackAccesses (h : Heap) (root : ObjId) (g : Getter) : Except Unit AccessSet :=
  runGetter h root g []

/-! ### Engine state (`subscribeTracked` closure) -/

/-- One key subscription held in the `unsubs` array: the identity of
its cancellation handle and the (object, key) pair it listens on. -/
structure Sub where
  id : Nat
  obj : ObjId
  key : Key
deriving DecidableEq

/-- Observable events, in program order: a cancellation handle being
invoked, a key subscription being opened, the change callback firing. -/
inductive Event where
  | cancel (id : Nat)
  | opened (o : ObjId) (k : Key)
  | callbackFired
deriving DecidableEq

/-- The mutable closure state of one `subscribeTracked` engine:
a counter for fresh handle identities, the `unsubs` array, the log of
cancellation-handle invocations, the number of times the change
callback has run, and the full event trace. -/
structure EngineState where
  nextId : Nat
  unsubs : List Sub
  cancelled : List Nat
  cbCount : Nat
  log : List Event
deriving DecidableEq

/-- The (object, key) pair a subscription listens on. -/
def subPair (u : Sub) : ObjId × Key := (u.obj, u.key)

/-- The open key subscriptions of an engine state, as (object, key)
pairs in the order they were opened. -/
def subsPairs (s : EngineState) : AccessSet := s.unsubs.map subPair

/-- `cleanup`: invoke every held cancellation handle once, in order,
then empty the `unsubs` array (`unsubs.length = 0`). -/
def cleanup (s : EngineState) : EngineState :=
  { nextId := s.nextId
    unsubs := []
    cancelled := s.cancelled ++ s.unsubs.map Sub.id
    cbCount := s.cbCount
    log := s.log ++ s.unsubs.map (fun u => Event.cancel u.id) }

/-- The subscription loop of `setupSubscriptions`: for every recorded
(object, key) pair, call `subscribeKey(obj, key, listener)` obtaining a
fresh cancellation handle, and push it onto `unsubs`. -/
def openSubs : AccessSet → EngineState → EngineState
  | [], s => s
  | (o, k) :: rest, s =>
      openSubs rest
        { nextId := s.nextId + 1
          unsubs := s.unsubs ++ [⟨s.nextId, o, k⟩]
          cancelled := s.cancelled
          cbCount := s.cbCount
          log := s.log ++ [Event.opened o k] }

/-- `setupSubscriptions`: first `cleanup()`, then `trackAccesses()`,
then open one key subscription per recorded pair.  When the selector
throws inside `trackAccesses`, the exception propagates to the caller
(`Except.error`) carrying the engine state left behind. -/
def setupSubscriptions (h : Heap) (root : ObjId) (g : Getter)
    (s : EngineState) : Except EngineState EngineState :=
  let s1 := cleanup s
  match trackAccesses h root g with
  | Except.error _ => Except.error s1
  | Except.ok acc => Except.ok (openSubs acc s1)

/-- The body of the key-change listener installed by
`setupSubscriptions`: `setupSubscriptions(); callback();` — rebuild,
then notify.  If the rebuild throws, the callback is never reached and
the exception propagates along the change path. -/
def listenerBody (h : Heap) (root : ObjId) (g : Getter)
    (s : EngineState) : Except EngineState EngineState :=
  match setupSubscriptions h root g s with
  | Except.error s1 => Except.error s1
  | Except.ok s1 =>
      Except.ok
        { nextId := s1.nextId
          unsubs := s1.unsubs
          cancelled := s1.cancelled
          cbCount := s1.cbCount + 1
          log := s1.log ++ [Event.callbackFired] }

/-- The closure state at engine creation: empty `unsubs`, nothing
cancelled, callback never run. -/
def initState : EngineState :=
  { nextId := 0, unsubs := [], cancelled := [], cbCount := 0, log := [] }

/-- `subscribeTracked`: run the initial `setupSubscriptions()` and hand
the caller `cleanup` as the unsubscribe function. -/
def subscribeTracked (h : Heap) (root : ObjId) (g : Getter) :
    Except EngineState EngineState :=
  setupSubscriptions h root g initState

/-- The teardown handle returned by `subscribeTracked` is exactly the
`cleanup` function of the engine closure. -/
def teardown : EngineState → EngineState := cleanup

/-- Whether the engine currently holds a live subscription on
(object `o`, key `k`). -/
def isSubscribedTo (s : EngineState) (o : ObjId) (k : Key) : Bool :=
  s.unsubs.any (fun u => u.obj == o && u.key == k)

/-- Delivery of a store change notification on (object `o`, key `k`):
the store invokes the listener only while the corresponding
subscription is live; otherwise nothing happens. -/
def deliverChange (h : Heap) (root : ObjId) (g : Getter) (o : ObjId)
    (k : Key) (s : EngineState) : Except EngineState EngineState :=
  if isSubscribedTo s o k then listenerBody h root g s else Except.ok s

/-- Project the engine state out of a possibly-thrown result. -/
def stateOf : Except EngineState EngineState → EngineState
  | Except.ok s => s
  | Except.error s => s

/-- Total number of property reads a getter performs. -/
def gReads : Getter → Nat
  | [] => 0
  | GStep.read p :: rest => p.length + gReads rest
  | GStep.fail :: rest => gReads rest

/-! Concrete fixtures used by witnesses: a one-object graph holding a
counter, the selector reading it, a graph with a two-hop chain, a
cyclic graph, and a throwing selector. -/

/-- Graph with a single object `0` whose key `count` holds `0`. -/
def h0 : Heap := fun o k =>
  if o == 0 && k == "count" then Value.vnum 0 else Value.vundef

/-- Selector reading `s.count`. -/
def g0 : Getter := [GStep.read ["count"]]

/-- The engine state right after `subscribeTracked(h0, 0, g0)`. -/
def sEng0 : EngineState := stateOf (subscribeTracked h0 0 g0)

/-- The engine state after running the returned teardown handle. -/
def tornDown0 : EngineState := teardown sEng0

/-- Graph where object `0` key `b` holds object `1`, whose key `c`
holds the number `5`. -/
def hChain : Heap := fun o k =>
  if o == 0 && k == "b" then Value.vref 1
  else if o == 1 && k == "c" then Value.vnum 5
  else Value.vundef

/-- Cyclic graph: object `0` holds itself under `self` and the number
`1` under `x`. -/
def hCyc : Heap := fun o k =>
  if o == 0 && k == "self" then Value.vref 0
  else if o == 0 && k == "x" then Value.vnum 1
  else Value.vundef

/-- Selector reading `s.self.x`, stepping through the cyclic edge. -/
def gCyc : Getter := [GStep.read ["self", "x"]]

/-- Selector that reads `s.count` and then throws. -/
def gThrow : Getter := [GStep.read ["count"], GStep.fail]

/-! Model of the selector-result bridge: `useTrackedSnapshot` decides
with `isValtioProxy` (src/utils.ts) whether the selector result is
part of the observable graph and, only then, hands the caller its
snapshot. -/

/-- A JavaScript value as the hook sees the selector result: `null`,
`undefined`, a primitive, a plain object, or a valtio proxy object
carrying the version counter that `getVersion` exposes. -/
inductive JSVal where
  | jnull
  | jundef
  | jprim (n : Nat)
  | plainObj (i : Nat)
  | proxyObj (i : Nat) (version : Nat)
deriving DecidableEq

/-- The valtio `getVersion` primitive: a number for proxy objects,
`undefined` (`none`) for everything else. -/
def getVersion : JSVal → Option Nat
  | JSVal.proxyObj _ v => Option.some v
  | _ => Option.none

/-- `isValtioProxy` from src/utils.ts:
`typeof getVersion(obj) === "number"`. -/
def isValtioProxy (v : JSVal) : Bool := (getVersion v).isSome

/-- The module-level `noopProxy = proxy({})` from src/utils.ts. -/
def noopProxy : JSVal := JSVal.proxyObj 0 0

/-- The snapshot computation at the end of `useTrackedSnapshot`:
`useSnapshot(isValtioProxy(value) ? value : noopProxy)` followed by
`return isValtioProxy(value) ? snapshot : value`, with `useSnapshot`
abstracted as the immutable-snapshot pass of the host store. -/
def useTrackedSnapshotValue (useSnap : JSVal → JSVal) (value : JSVal) : JSVal :=
  let snapshot := useSnap (if isValtioProxy value then value else noopProxy)
  if isValtioProxy value then snapshot else value

/-! Lemma layer: how the access set and the engine state evolve. -/

/-- Recording preserves freedom from duplicates. -/
theorem recordAccess_nodup {acc : AccessSet} {o : ObjId} {k : Key}
    (hnd : acc.Nodup) : (recordAccess acc o k).Nodup := by
  unfold recordAccess
  split
  · exact hnd
  · next hmem =>
      refine List.Nodup.append hnd (List.nodup_singleton _) ?_
      intro a ha hb
      rw [List.mem_singleton] at hb
      exact hmem (hb ▸ ha)

/-- Recording grows the access set by at most one entry. -/
theorem recordAccess_length (acc : AccessSet) (o : ObjId) (k : Key) :
    (recordAccess acc o k).length ≤ acc.length + 1 := by
  unfold recordAccess
  split
  · omega
  · simp

/-- The access set produced by one tracker read: the recorded set when
tracking is on, untouched when tracking is off. -/
theorem trackerGet_acc (h : Heap) (t : Bool) (o : ObjId) (k : Key)
    (acc : AccessSet) :
    (trackerGet h t o k acc).2 = if t then recordAccess acc o k else acc := by
  cases hv : h o k <;> cases t <;> simp [trackerGet, hv]

/-- A read with tracking off leaves the access set untouched. -/
theorem readStep_false_acc (h : Heap) (v : TVal) (k : Key) (acc : AccessSet) :
    (readStep h false v k acc).2 = acc := by
  cases v with
  | tracked o => simp [readStep, trackerGet_acc]
  | plain w => cases w <;> simp [readStep]

/-- One read preserves freedom from duplicates. -/
theorem readStep_acc_nodup (h : Heap) (t : Bool) (v : TVal) (k : Key)
    (acc : AccessSet) (hnd : acc.Nodup) : (readStep h t v k acc).2.Nodup := by
  cases v with
  | tracked o =>
      simp only [readStep, trackerGet_acc]
      cases t
      · simpa using hnd
      · simpa using recordAccess_nodup hnd
  | plain w => cases w <;> simpa [readStep] using hnd

/-- One read grows the access set by at most one entry. -/
theorem readStep_acc_length (h : Heap) (t : Bool) (v : TVal) (k : Key)
    (acc : AccessSet) : (readStep h t v k acc).2.length ≤ acc.length + 1 := by
  cases v with
  | tracked o =>
      simp only [readStep, trackerGet_acc]
      cases t
      · simp
      · simpa using recordAccess_length acc o k
  | plain w => cases w <;> simp [readStep]

/-- A chained read with tracking off leaves the access set untouched. -/
theorem readChain_false_acc (h : Heap) :
    ∀ (p : List Key) (v : TVal) (acc : AccessSet),
      (readChain h false v p acc).2 = acc := by
  intro p
  induction p with
  | nil => intro v acc; rfl
  | cons k ks ih =>
      intro v acc
      simp only [readChain]
      rw [ih, readStep_false_acc]

/-- A chained read preserves freedom from duplicates. -/
theorem readChain_acc_nodup (h : Heap) (t : Bool) :
    ∀ (p : List Key) (v : TVal) (acc : AccessSet),
      acc.Nodup → (readChain h t v p acc).2.Nodup := by
  intro p
  induction p with
  | nil => intro v acc hnd; exact hnd
  | cons k ks ih =>
      intro v acc hnd
      simp only [readChain]
      exact ih _ _ (readStep_acc_nodup h t v k acc hnd)

/-- A chained read grows the access set by at most its length. -/
theorem readChain_acc_length (h : Heap) (t : Bool) :
    ∀ (p : List Key) (v : TVal) (acc : AccessSet),
      (readChain h t v p acc).2.length ≤ acc.length + p.length := by
  intro p
  induction p with
  | nil => intro v acc; simp [readChain]
  | cons k ks ih =>
      intro v acc
      simp only [readChain, List.length_cons]
      have h1 := readStep_acc_length h t v k acc
      have h2 := ih (readStep h t v k acc).1 (readStep h t v k acc).2
      omega

/-- A successful getter run from a duplicate-free set yields a
duplicate-free set. -/
theorem runGetter_nodup (h : Heap) (root : ObjId) :
    ∀ (g : Getter) (acc acc2 : AccessSet),
      acc.Nodup → runGetter h root g acc = Except.ok acc2 → acc2.Nodup := by
  intro g
  induction g with
  | nil =>
      intro acc acc2 hnd he
      simp only [runGetter, Except.ok.injEq] at he
      exact he ▸ hnd
  | cons st rest ih =>
      intro acc acc2 hnd he
      cases st with
      | fail => simp [runGetter] at he
      | read p =>
          simp only [runGetter] at he
          exact ih _ _ (readChain_acc_nodup h true p (TVal.tracked root) acc hnd) he

/-- A successful getter run records at most one pair per read. -/
theorem runGetter_length (h : Heap) (root : ObjId) :
    ∀ (g : Getter) (acc acc2 : AccessSet),
      runGetter h root g acc = Except.ok acc2 →
      acc2.length ≤ acc.length + gReads g := by
  intro g
  induction g with
  | nil =>
      intro acc acc2 he
      simp only [runGetter, Except.ok.injEq] at he
      simp [gReads, ← he]
  | cons st rest ih =>
      intro acc acc2 he
      cases st with
      | fail => simp [runGetter] at he
      | read p =>
          simp only [runGetter] at he
          have h1 := ih _ _ he
          have h2 := readChain_acc_length h true p (TVal.tracked root) acc
          simp only [gReads]
          omega

/-- Running the teardown handle a second time changes nothing. -/
theorem cleanup_cleanup (s : EngineState) : cleanup (cleanup s) = cleanup s := by
  simp [cleanup]

/-- The subscriptions opened from an access set, as pairs: the previous
subscriptions followed by exactly the pairs of the access set. -/
theorem openSubs_unsubs_pairs (acc : AccessSet) :
    ∀ s : EngineState,
      (openSubs acc s).unsubs.map subPair = s.unsubs.map subPair ++ acc := by
  induction acc with
  | nil => intro s; simp [openSubs]
  | cons p rest ih =>
      intro s
      cases p with
      | mk o k => simp [openSubs, ih, subPair]

/-- Opening subscriptions never runs the change callback. -/
theorem openSubs_cbCount (acc : AccessSet) :
    ∀ s : EngineState, (openSubs acc s).cbCount = s.cbCount := by
  induction acc with
  | nil => intro s; rfl
  | cons p rest ih =>
      intro s
      cases p with
      | mk o k => simp [openSubs, ih]

/-- Opening subscriptions invokes no cancellation handle. -/
theorem openSubs_cancelled (acc : AccessSet) :
    ∀ s : EngineState, (openSubs acc s).cancelled = s.cancelled := by
  induction acc with
  | nil => intro s; rfl
  | cons p rest ih =>
      intro s
      cases p with
      | mk o k => simp [openSubs, ih]

/-- The trace of opening subscriptions: one `opened` event per pair. -/
theorem openSubs_log (acc : AccessSet) :
    ∀ s : EngineState,
      (openSubs acc s).log = s.log ++ acc.map (fun p => Event.opened p.1 p.2) := by
  induction acc with
  | nil => intro s; simp [openSubs]
  | cons p rest ih =>
      intro s
      cases p with
      | mk o k => simp [openSubs, ih]

/-- A successful rebuild produces exactly the subscriptions of the
fresh access set. -/
theorem setupSubscriptions_ok (h : Heap) (root : ObjId) (g : Getter)
    (acc : AccessSet) (s : EngineState)
    (hacc : trackAccesses h root g = Except.ok acc) :
    setupSubscriptions h root g s = Except.ok (openSubs acc (cleanup s)) := by
  simp [setupSubscriptions, hacc]

/-! Claim theorems. -/

/-- Claim C1: at every quiescent moment — right after the initial build
and right after every completed rebuild — the open key subscriptions
are exactly the (object, key) pairs recorded by the most recent
selector evaluation, equal as lists in recording order: no pair the
evaluation did not access is subscribed, every accessed pair is
subscribed, and (`Nodup`) no pair has more than one subscription. -/
theorem quiescent_subscriptions_exact (h : Heap) (root : ObjId)
    (g : Getter) (acc : AccessSet)
    (hacc : trackAccesses h root g = Except.ok acc) :
    (∀ s s1, setupSubscriptions h root g s = Except.ok s1 →
      subsPairs s1 = acc ∧ (subsPairs s1).Nodup) ∧
    (∀ s s1, listenerBody h root g s = Except.ok s1 →
      subsPairs s1 = acc ∧ (subsPairs s1).Nodup) := by
  have hnd : acc.Nodup := runGetter_nodup h root g [] acc List.nodup_nil hacc
  have hsetup : ∀ s s1, setupSubscriptions h root g s = Except.ok s1 →
      subsPairs s1 = acc ∧ (subsPairs s1).Nodup := by
    intro s s1 he
    rw [setupSubscriptions_ok h root g acc s hacc, Except.ok.injEq] at he
    subst he
    have hpairs : subsPairs (openSubs acc (cleanup s)) = acc := by
      rw [subsPairs, openSubs_unsubs_pairs]
      simp [cleanup]
    exact ⟨hpairs, by rw [hpairs]; exact hnd⟩
  refine ⟨hsetup, ?_⟩
  intro s s1 he
  rw [listenerBody, setupSubscriptions_ok h root g acc s hacc] at he
  simp only [Except.ok.injEq] at he
  subst he
  have := hsetup s (openSubs acc (cleanup s)) (setupSubscriptions_ok h root g acc s hacc)
  simpa [subsPairs] using this

/-- Witness for C1 on the concrete counter graph: the engine built by
`subscribeTracked` holds exactly the subscription on `(0, count)`. -/
theorem quiescent_subscriptions_exact_witness :
    trackAccesses h0 0 g0 = Except.ok [(0, "count")] ∧
    (subsPairs sEng0 = [(0, "count")] ∧ (subsPairs sEng0).Nodup) :=
  ⟨rfl, (quiescent_subscriptions_exact h0 0 g0 [(0, "count")] rfl).1 initState sEng0 rfl⟩

/-- Claim C2: a change notification delivered to a key listener runs
the full rebuild to completion before the caller change callback is
invoked: the listener result is exactly the rebuilt state with one
callback invocation appended; its trace is the cancellations of all
old subscriptions, then the openings of the fresh set, then
`callbackFired`; and the state in which the callback runs already
holds precisely the fresh subscriptions. -/
theorem callback_fires_after_rebuild (h : Heap) (root : ObjId)
    (g : Getter) (acc : AccessSet) (s s1 : EngineState)
    (hacc : trackAccesses h root g = Except.ok acc)
    (hrun : listenerBody h root g s = Except.ok s1) :
    ∃ smid, setupSubscriptions h root g s = Except.ok smid ∧
      s1.unsubs = smid.unsubs ∧
      subsPairs smid = acc ∧
      s1.cbCount = smid.cbCount + 1 ∧
      smid.log = s.log ++ s.unsubs.map (fun u => Event.cancel u.id)
        ++ acc.map (fun p => Event.opened p.1 p.2) ∧
      s1.log = smid.log ++ [Event.callbackFired] := by
  refine ⟨openSubs acc (cleanup s), setupSubscriptions_ok h root g acc s hacc, ?_⟩
  rw [listenerBody, setupSubscriptions_ok h root g acc s hacc] at hrun
  simp only [Except.ok.injEq] at hrun
  subst hrun
  refine ⟨rfl, ?_, rfl, ?_, rfl⟩
  · rw [subsPairs, openSubs_unsubs_pairs]
    simp [cleanup]
  · rw [openSubs_log]
    simp [cleanup]

/-- Witness for C2 on the concrete counter graph: delivering a change
to the live listener yields the rebuilt state plus one callback. -/
theorem callback_fires_after_rebuild_witness :
    ∃ smid, setupSubscriptions h0 0 g0 sEng0 = Except.ok smid ∧
      (stateOf (listenerBody h0 0 g0 sEng0)).unsubs = smid.unsubs ∧
      subsPairs smid = [(0, "count")] ∧
      (stateOf (listenerBody h0 0 g0 sEng0)).cbCount = smid.cbCount + 1 ∧
      smid.log = sEng0.log ++ sEng0.unsubs.map (fun u => Event.cancel u.id)
        ++ ([(0, "count")] : AccessSet).map (fun p => Event.opened p.1 p.2) ∧
      (stateOf (listenerBody h0 0 g0 sEng0)).log = smid.log ++ [Event.callbackFired] :=
  callback_fires_after_rebuild h0 0 g0 [(0, "count")] sEng0
    (stateOf (listenerBody h0 0 g0 sEng0)) rfl rfl

/-- Claim C3 is violated by the code: the key listener body is an
unguarded `setupSubscriptions(); callback();`, so a change
notification that reaches a retained listener after the teardown
handle has run is not ignored — it rebuilds the full subscription set
(which the claim requires to stay empty) and invokes the caller change
callback (which the claim forbids). -/
theorem stale_delivery_rebuilds_and_notifies :
    tornDown0.unsubs = [] ∧
    subsPairs (stateOf (listenerBody h0 0 g0 tornDown0)) = [(0, "count")] ∧
    (stateOf (listenerBody h0 0 g0 tornDown0)).cbCount = tornDown0.cbCount + 1 :=
  ⟨rfl, rfl, rfl⟩

/-- Claim C10: the initial `subscribeTracked` call never invokes the
caller change callback: whether the initial build succeeds or the
selector throws, the engine state it leaves behind has callback count
zero and no `callbackFired` event in its trace — the callback is
reachable only from a key listener firing after a tracked pair
changes. -/
theorem initial_build_never_invokes_callback (h : Heap) (root : ObjId)
    (g : Getter) :
    (stateOf (subscribeTracked h root g)).cbCount = 0 ∧
    Event.callbackFired ∉ (stateOf (subscribeTracked h root g)).log := by
  cases hacc : trackAccesses h root g with
  | error e =>
      simp [subscribeTracked, setupSubscriptions, hacc, stateOf, cleanup, initState]
  | ok acc =>
      constructor
      · simp [subscribeTracked, setupSubscriptions, hacc, stateOf,
          openSubs_cbCount, cleanup, initState]
      · simp only [subscribeTracked, setupSubscriptions, hacc, stateOf]
        rw [openSubs_log]
        simp [cleanup, initState]

/-- Claim C4: while tracking is on, every hop of a chained read is
recorded against its own receiver: reading `k1` on the tracked wrapper
of `a` when the underlying value is object `b` records `(a, k1)` and
returns `b` recursively wrapped — lazily, the wrapper holds only the
reference and nothing of the graph below it is traversed — so a
following read of `k2` lands on `b` and is recorded as `(b, k2)`;
whereas a read whose value is null, undefined or any non-object comes
back as an unwrapped plain value with no recursive wrapping. -/
theorem chained_reads_record_each_hop (h : Heap) (a b : ObjId)
    (k1 k2 : Key) :
    (h a k1 = Value.vref b → (a, k1) ≠ (b, k2) →
      (readStep h true (TVal.tracked a) k1 []).1 = TVal.tracked b ∧
      (readChain h true (TVal.tracked a) [k1, k2] []).2 = [(a, k1), (b, k2)]) ∧
    ((h a k1).isRef = false →
      (readStep h true (TVal.tracked a) k1 []).1 = TVal.plain (h a k1)) := by
  constructor
  · intro hb hne
    have hstep1 : readStep h true (TVal.tracked a) k1 [] = (TVal.tracked b, [(a, k1)]) := by
      simp [readStep, trackerGet, hb, recordAccess]
    have hstep2 : (readStep h true (TVal.tracked b) k2 [(a, k1)]).2 = [(a, k1), (b, k2)] := by
      simp only [readStep, trackerGet_acc, if_true]
      simp [recordAccess, Ne.symm hne]
    constructor
    · rw [hstep1]
    · simp only [readChain]
      rw [hstep1]
      simp only [readChain]
      rw [hstep2]
  · intro hv
    cases hw : h a k1 with
    | vref o => rw [hw] at hv; simp [Value.isRef] at hv
    | vnull => simp [readStep, trackerGet, hw]
    | vundef => simp [readStep, trackerGet, hw]
    | vnum n => simp [readStep, trackerGet, hw]
    | vstr s => simp [readStep, trackerGet, hw]

/-- Witness for C4 on the chain graph: reading `b` then `c` from the
tracked root records `(0, b)` and `(1, c)`, while the primitive at
`(1, c)` is handed back unwrapped. -/
theorem chained_reads_record_each_hop_witness :
    hChain 0 "b" = Value.vref 1 ∧ ((0, "b") : ObjId × Key) ≠ (1, "c") ∧
    ((readStep hChain true (TVal.tracked 0) "b" []).1 = TVal.tracked 1 ∧
      (readChain hChain true (TVal.tracked 0) ["b", "c"] []).2 = [(0, "b"), (1, "c")]) ∧
    (hChain 1 "c").isRef = false ∧
    (readStep hChain true (TVal.tracked 1) "c" []).1 = TVal.plain (hChain 1 "c") :=
  ⟨rfl, by decide,
    (chained_reads_record_each_hop hChain 0 1 "b" "c").1 rfl (by decide),
    rfl,
    (chained_reads_record_each_hop hChain 1 1 "c" "c").2 rfl⟩

/-- Claim C5: when the selector throws during the tracking evaluation —
at `start` via `subscribeTracked`, or during a rebuild on the change
path — the exception propagates to that caller (`Except.error`), the
change callback is not reached, and the engine is never left with a
half-open subscription set: with the cancel-first policy of the source
the erroring engine holds no subscriptions at all, which is the second
arm of the claim disjunction, so no mixture of old and new
subscriptions survives. -/
theorem selector_throw_propagates_no_half_open (h : Heap) (root : ObjId)
    (g : Getter) (s : EngineState)
    (hthrow : trackAccesses h root g = Except.error ()) :
    setupSubscriptions h root g s = Except.error (cleanup s) ∧
    (cleanup s).unsubs = [] ∧
    listenerBody h root g s = Except.error (cleanup s) ∧
    (cleanup s).cbCount = s.cbCount ∧
    subscribeTracked h root g = Except.error (cleanup initState) := by
  have hset : setupSubscriptions h root g s = Except.error (cleanup s) := by
    simp [setupSubscriptions, hthrow]
  refine ⟨hset, rfl, ?_, rfl, ?_⟩
  · rw [listenerBody, hset]
  · simp [subscribeTracked, setupSubscriptions, hthrow]

/-- Witness for C5: a throwing rebuild from the live engine state over
the counter graph errors out and leaves zero subscriptions. -/
theorem selector_throw_propagates_witness :
    trackAccesses h0 0 gThrow = Except.error () ∧
    setupSubscriptions h0 0 gThrow sEng0 = Except.error (cleanup sEng0) ∧
    (cleanup sEng0).unsubs = [] :=
  ⟨rfl, (selector_throw_propagates_no_half_open h0 0 gThrow sEng0 rfl).1,
    (selector_throw_propagates_no_half_open h0 0 gThrow sEng0 rfl).2.1⟩

/-- Claim C6: a tracking evaluation over a graph containing a cycle
(here `h root kc` refers back to `root` itself) terminates and does
bounded work for any selector performing a bounded number of reads:
the evaluation is a total function of the embedding — recursion is
driven solely by the reads the selector actually performs, never by
graph traversal — and the recorded access set is no larger than the
number of reads, so wrapping cannot grow unboundedly. -/
theorem cyclic_graph_tracking_bounded (h : Heap) (root : ObjId)
    (kc : Key) (g : Getter) (acc : AccessSet)
    (_hcyc : h root kc = Value.vref root)
    (hok : trackAccesses h root g = Except.ok acc) :
    acc.length ≤ gReads g := by
  have := runGetter_length h root g [] acc hok
  simpa using this

/-- Witness for C6: on the self-referential graph, the selector
reading `self.x` steps through the cyclic edge, completes, and records
two pairs for its two reads. -/
theorem cyclic_graph_tracking_bounded_witness :
    hCyc 0 "self" = Value.vref 0 ∧
    trackAccesses hCyc 0 gCyc = Except.ok [(0, "self"), (0, "x")] ∧
    ([(0, "self"), (0, "x")] : AccessSet).length ≤ gReads gCyc :=
  ⟨rfl, rfl, cyclic_graph_tracking_bounded hCyc 0 "self" gCyc [(0, "self"), (0, "x")] rfl rfl⟩

/-- Claim C7: the teardown handle returned by `subscribeTracked`
invokes every held cancellation handle exactly once (each held handle
id occurs exactly once in the invocation log afterwards); calling it
any number of further times is a guaranteed no-op — the state is
unchanged, so no handle is invoked a second time and nothing can
throw; and after teardown no change delivery reaches the listener, so
no further change callbacks occur regardless of subsequent mutation. -/
theorem teardown_idempotent_cancels_once (s : EngineState)
    (hnd : (s.unsubs.map Sub.id).Nodup)
    (hfresh : ∀ u ∈ s.unsubs, u.id ∉ s.cancelled) :
    (∀ u ∈ s.unsubs, (teardown s).cancelled.count u.id = 1) ∧
    (∀ n : Nat, teardown^[n + 1] s = teardown s) ∧
    (∀ (h : Heap) (root : ObjId) (g : Getter) (o : ObjId) (k : Key),
      deliverChange h root g o k (teardown s) = Except.ok (teardown s)) := by
  refine ⟨?_, ?_, ?_⟩
  · intro u hu
    have hmem : u.id ∈ s.unsubs.map Sub.id := List.mem_map_of_mem Sub.id hu
    have h0 : s.cancelled.count u.id = 0 := List.count_eq_zero.mpr (hfresh u hu)
    have h1 : (s.unsubs.map Sub.id).count u.id = 1 :=
      List.count_eq_one_of_mem hnd hmem
    simp [teardown, cleanup, List.count_append, h0, h1]
  · intro n
    induction n with
    | zero => simp
    | succ m ih =>
        rw [Function.iterate_succ_apply', ih]
        exact cleanup_cleanup s
  · intro h root g o k
    simp [deliverChange, isSubscribedTo, teardown, cleanup]

/-- Witness for C7 on the concrete counter engine: its single handle
(id 0) is cancelled exactly once, a second teardown changes nothing,
and a mutation of the tracked key after teardown delivers nothing. -/
theorem teardown_idempotent_cancels_once_witness :
    ((teardown sEng0).cancelled.count 0 = 1) ∧
    (teardown^[2] sEng0 = teardown sEng0) ∧
    (deliverChange h0 0 g0 0 "count" (teardown sEng0) = Except.ok (teardown sEng0)) :=
  ⟨(teardown_idempotent_cancels_once sEng0 (by decide) (by decide)).1
      ⟨0, 0, "count"⟩ (by decide),
    (teardown_idempotent_cancels_once sEng0 (by decide) (by decide)).2.1 1,
    (teardown_idempotent_cancels_once sEng0 (by decide) (by decide)).2.2 h0 0 g0 0 "count"⟩

/-- Claim C8: the access recorder has no side effects while tracking is
off — a single read through a retained wrapper records nothing and
hands back the plain unwrapped value (so nothing downstream is wrapped
either), an arbitrary chain of reads leaves any access set untouched —
and every invocation of the tracking entry point builds its accesses
starting from a fresh empty set, so reads performed after a pass ended
cannot pollute the set of the next pass. -/
theorem inactive_tracking_records_nothing (h : Heap) (root o : ObjId)
    (k : Key) (v : TVal) (p : List Key) (acc : AccessSet) (g : Getter) :
    (trackerGet h false o k acc).2 = acc ∧
    (trackerGet h false o k acc).1 = TVal.plain (h o k) ∧
    (readChain h false v p acc).2 = acc ∧
    trackAccesses h root g = runGetter h root g [] := by
  refine ⟨?_, ?_, readChain_false_acc h p v acc, rfl⟩
  · simp [trackerGet_acc]
  · cases hw : h o k <;> simp [trackerGet, hw]

/-- Claim C9: `useTrackedSnapshot` applies the immutable-snapshot pass
to the selector result exactly when the result belongs to the
observable graph: `isValtioProxy` holds precisely when `getVersion`
yields a number, which it does for proxy objects and for nothing else;
an observable result comes back as its snapshot, and any other result
— primitive, null, undefined or plain object — comes back as-is,
unchanged. -/
theorem snapshot_applied_iff_valtio_proxy (useSnap : JSVal → JSVal)
    (value : JSVal) :
    useTrackedSnapshotValue useSnap value
      = (if isValtioProxy value then useSnap value else value) ∧
    (isValtioProxy value = true ↔ ∃ n, getVersion value = Option.some n) ∧
    (∀ i v, isValtioProxy (JSVal.proxyObj i v) = true) ∧
    (∀ i, isValtioProxy (JSVal.plainObj i) = false) ∧
    (∀ n, isValtioProxy (JSVal.jprim n) = false) ∧
    isValtioProxy JSVal.jnull = false ∧
    isValtioProxy JSVal.jundef = false := by
  refine ⟨?_, ?_, ?_, ?_, ?_, rfl, rfl⟩
  · unfold useTrackedSnapshotValue
    cases hv : isValtioProxy value <;> simp [hv]
  · cases value <;> simp [isValtioProxy, getVersion]
  · intro i v; rfl
  · intro i; rfl
  · intro n; rfl

end ValtioSelect
